import Mathlib

/-!
Verification of the supermath scoring / badge / achievement core.

The definitions below are a shallow embedding of:
  * `Player` (src/js/models/Player.js, the file whose body appears as
    src/unnamed/part_005): scoring, leveling, streaks, per-operation
    statistics, achievements list, settings, (de)serialization;
  * `BadgeSystem` and `Achievement` (src/src/js/models/BadgeSystem.js):
    streak badges and achievement eligibility.

JavaScript conventions are modelled explicitly:
  * `data.x || default` picks `default` exactly when `x` is falsy; for a
    string field falsy means the empty string, for a numeric field it means
    0, and object/array fields coming from an absent key are modelled with
    `Option` (`none` = the key is `undefined`; a present object or array is
    always truthy).
  * `new Date().toISOString()` and `generateId()` are nondeterministic
    inputs; they are threaded in as explicit arguments (an `Env` for the
    constructor, a `now` argument for methods that touch timestamps).
    Both always produce nonempty strings.
  * Thrown exceptions are modelled with `Except`.
-/

namespace Supermath

/-- Per-operation statistics record `{score, questionsAnswered, correctAnswers}`. -/
structure OpStats where
  score : Nat
  questionsAnswered : Nat
  correctAnswers : Nat
deriving DecidableEq, Repr

/-- `operationStats` is a string-keyed object with lazily created keys:
`none` models an absent key. -/
def StatsMap : Type := String → Option OpStats

/-- The settings keys that `Player`'s default settings object carries. -/
structure Settings where
  difficulty : String
  soundEnabled : Bool
  animationSpeed : String
deriving DecidableEq, Repr

/-- A partial settings object for `updateSettings` (a JS object literal in
which each key may be absent). -/
structure PartialSettings where
  difficulty : Option String := none
  soundEnabled : Option Bool := none
  animationSpeed : Option String := none
deriving DecidableEq, Repr

/-- The player record of src/unnamed/part_005 (`Player.js`). -/
structure Player where
  id : String
  totalScore : Int
  operationStats : StatsMap
  achievements : List String
  settings : Settings
  createdAt : String
  lastPlayed : String
  level : Nat
  streak : Nat
  bestStreak : Nat

/-- The plain-data snapshot produced by `Player.toJSON()` and consumed by the
constructor / `Player.fromJSON`.  String and numeric fields use their JS
falsy value (`""`, `0`) for `undefined`; object and array fields use
`Option`. -/
structure PlayerJSON where
  id : String
  totalScore : Int
  operationStats : Option StatsMap
  achievements : Option (List String)
  settings : Option Settings
  createdAt : String
  lastPlayed : String
  level : Nat
  streak : Nat
  bestStreak : Nat

/-- Nondeterministic environment of the constructor: the result of
`this.generateId()` and of `new Date().toISOString()`.  Both are nonempty
strings in JS (`generateId` prepends the literal `player_`). -/
structure Env where
  freshId : String
  nowIso : String

/-- The default `operationStats` object built in the constructor. -/
def defaultStats : StatsMap := fun op =>
  if op = "addition" ∨ op = "subtraction" ∨ op = "multiplication" ∨
     op = "division" ∨ op = "supermode"
  then some ⟨0, 0, 0⟩ else none

/-- The default `settings` object built in the constructor. -/
def defaultSettings : Settings :=
  { difficulty := "medium", soundEnabled := true, animationSpeed := "normal" }

/-- `new Player(data)`: every field is `data.field || default` (JS
truthiness as described above). -/
def newPlayer (env : Env) (data : PlayerJSON) : Player :=
  { id := if data.id = "" then env.freshId else data.id
    totalScore := if data.totalScore = 0 then 0 else data.totalScore
    operationStats := data.operationStats.getD defaultStats
    achievements := data.achievements.getD []
    settings := data.settings.getD defaultSettings
    createdAt := if data.createdAt = "" then env.nowIso else data.createdAt
    lastPlayed := if data.lastPlayed = "" then env.nowIso else data.lastPlayed
    level := if data.level = 0 then 1 else data.level
    streak := if data.streak = 0 then 0 else data.streak
    bestStreak := if data.bestStreak = 0 then 0 else data.bestStreak }

/-- The empty `data = {}` argument of `new Player()`: every key is absent /
falsy. -/
def emptyJSON : PlayerJSON :=
  { id := "", totalScore := 0, operationStats := none, achievements := none
    settings := none, createdAt := "", lastPlayed := "", level := 0
    streak := 0, bestStreak := 0 }

/-- `new Player()` — the default constructor. -/
def freshPlayer (env : Env) : Player := newPlayer env emptyJSON

/-- `Player.recordAnswer(operation, isCorrect, points)`.  `now` is the
`new Date().toISOString()` value stored into `lastPlayed`. -/
def recordAnswer (p : Player) (operation : String) (isCorrect : Bool)
    (points : Nat) (now : String) : Player :=
  let st0 := (p.operationStats operation).getD ⟨0, 0, 0⟩
  let st1 := { st0 with questionsAnswered := st0.questionsAnswered + 1 }
  if isCorrect then
    let st2 := { st1 with correctAnswers := st1.correctAnswers + 1
                          score := st1.score + points }
    let totalScore' := p.totalScore + points
    let streak' := p.streak + 1
    let bestStreak' := if streak' > p.bestStreak then streak' else p.bestStreak
    let level' := if totalScore' ≥ (p.level * 50 : Nat) then p.level + 1 else p.level
    { p with
      operationStats := fun k => if k = operation then some st2 else p.operationStats k
      totalScore := totalScore'
      streak := streak'
      bestStreak := bestStreak'
      lastPlayed := now
      level := level' }
  else
    let level' := if p.totalScore ≥ (p.level * 50 : Nat) then p.level + 1 else p.level
    { p with
      operationStats := fun k => if k = operation then some st1 else p.operationStats k
      streak := 0
      lastPlayed := now
      level := level' }

/-- `Player.getAccuracy(operation)`:
`Math.round((correct / answered) * 100 * 100) / 100`, guarded by
`if (!stats || stats.questionsAnswered === 0) return 0`. -/
def getAccuracy (p : Player) (operation : String) : ℚ :=
  match p.operationStats operation with
  | none => 0
  | some stats =>
    if stats.questionsAnswered = 0 then 0
    else
      ((round (((stats.correctAnswers : ℚ) / (stats.questionsAnswered : ℚ))
          * 100 * 100) : ℤ) : ℚ) / 100

/-- The spec's name (`InvalidScoreDelta`, §7) for the error
`new Error('Score cannot be negative')` thrown by `Player.addScore`. -/
def InvalidScoreDelta : String := "Score cannot be negative"

/-- `Player.addScore(points)`: throws for a negative argument, otherwise
adds to `totalScore` (and nothing else — in particular it does not touch
`level`). -/
def addScore (p : Player) (points : Int) : Except String Player :=
  if points < 0 then .error InvalidScoreDelta
  else .ok { p with totalScore := p.totalScore + points }

/-- The state a caller observes after `addScore`: unchanged when the call
threw. -/
def addScoreState (p : Player) (points : Int) : Player :=
  match addScore p points with
  | .ok q => q
  | .error _ => p

/-- `Player.addAchievement(achievementId)`: idempotent insert returning
whether the id was new. -/
def addAchievement (p : Player) (achievementId : String) : Bool × Player :=
  if p.achievements.contains achievementId then (false, p)
  else (true, { p with achievements := p.achievements ++ [achievementId] })

/-- `Player.hasAchievement(achievementId)`. -/
def hasAchievement (p : Player) (achievementId : String) : Bool :=
  p.achievements.contains achievementId

/-- `Player.updateSettings(newSettings)`: shallow spread-merge
`{...this.settings, ...newSettings}`. -/
def updateSettings (p : Player) (newSettings : PartialSettings) : Player :=
  { p with settings :=
    { difficulty := newSettings.difficulty.getD p.settings.difficulty
      soundEnabled := newSettings.soundEnabled.getD p.settings.soundEnabled
      animationSpeed := newSettings.animationSpeed.getD p.settings.animationSpeed } }

/-- `Player.toJSON()`. -/
def toJSON (p : Player) : PlayerJSON :=
  { id := p.id
    totalScore := p.totalScore
    operationStats := some p.operationStats
    achievements := some p.achievements
    settings := some p.settings
    createdAt := p.createdAt
    lastPlayed := p.lastPlayed
    level := p.level
    streak := p.streak
    bestStreak := p.bestStreak }

/-- `Player.fromJSON(data) = new Player(data)`. -/
def fromJSON (env : Env) (data : PlayerJSON) : Player := newPlayer env data

/-! ## Badge system (src/src/js/models/BadgeSystem.js)

The `BadgeSystem` consults `player.hasBadge` / `player.awardBadge` /
`player.badges`.  These members of the extended `Player.js` are not present
under src/ (the checked-in `Player` body predates the badge feature; only
the BadgeSystem callers, the tests and the implementation plan reference
them), so they are modelled from the spec below.  The badge state of a
player is the `badges` map alone, so it is carried as its own value. -/

/-- The four badge types, in the insertion order of `BADGE_THRESHOLDS`. -/
inductive BadgeType where
  | badge1 | bronze | silver | gold
deriving DecidableEq, Repr

/-- `BADGE_THRESHOLDS`. -/
def BADGE_THRESHOLDS : BadgeType → Nat
  | .badge1 => 3
  | .bronze => 5
  | .silver => 10
  | .gold => 15

/-- `BADGE_NAMES`. -/
def BADGE_NAMES : BadgeType → String
  | .badge1 => "First Streak"
  | .bronze => "Bronze Streak"
  | .silver => "Silver Streak"
  | .gold => "Gold Streak"

/-- One entry of `player.badges`: `{earned, count, lastEarned}`. -/
structure BadgeState where
  earned : Bool
  count : Nat
  lastEarned : Option Nat
deriving DecidableEq, Repr

/-- The player's `badges` map. -/
def Badges : Type := BadgeType → BadgeState

/-- The fresh `badges` map of the implementation plan:
every badge `{earned: false, count: 0}`. -/
def initialBadges : Badges := fun _ => ⟨false, 0, none⟩

/-- Modelled from the spec: `Player.awardBadge(type)` is missing from src/
(only its callers, tests and the implementation plan are present).  Spec
§4.1: sets `badges[type].earned = true`, increments `count`, sets
`lastEarned` to the current time; on an already-earned badge only
`count`/`lastEarned` change. -/
def awardBadge (b : Badges) (t : BadgeType) (now : Nat) : Badges :=
  fun u => if u = t
    then { earned := true, count := (b t).count + 1, lastEarned := some now }
    else b u

/-- Modelled from the spec: `Player.hasBadge(type)` is missing from src/;
it reads `badges[type].earned` (spec §3 and the BadgeSystem tests). -/
def hasBadge (b : Badges) (t : BadgeType) : Bool := (b t).earned

/-- `Object.keys(this.thresholds)` in insertion order. -/
def badgeKeys : List BadgeType := [.badge1, .bronze, .silver, .gold]

/-- Insertion sort by a `≤`-style comparator; models
`Array.prototype.sort(comparator)` on the (4-element) key arrays, which is
a stable sort. -/
def insertSorted (le : BadgeType → BadgeType → Bool) (x : BadgeType) :
    List BadgeType → List BadgeType
  | [] => [x]
  | y :: ys => if le x y then x :: y :: ys else y :: insertSorted le x ys

/-- Stable sort built on `insertSorted`. -/
def sortBy (le : BadgeType → BadgeType → Bool) : List BadgeType → List BadgeType
  | [] => []
  | x :: xs => insertSorted le x (sortBy le xs)

/-- The badge keys sorted ascending by threshold, as in
`getNextBadgeTarget` (`sort((a, b) => thresholds[a] - thresholds[b])`). -/
def badgeKeysAsc : List BadgeType :=
  sortBy (fun a b => BADGE_THRESHOLDS a ≤ BADGE_THRESHOLDS b) badgeKeys

/-- `BadgeSystem.checkAndAwardBadges(currentStreak)` — the `for` loop over
`['badge1', 'bronze', 'silver', 'gold']`: award the first badge with
`currentStreak >= threshold` that is not yet earned and stop (`break`).
Returns the awarded badge (`newBadge`) and the updated badge map. -/
def checkLoop (b : Badges) (currentStreak : Nat) (now : Nat) :
    List BadgeType → Option BadgeType × Badges
  | [] => (none, b)
  | t :: rest =>
    if currentStreak ≥ BADGE_THRESHOLDS t ∧ ¬ hasBadge b t
    then (some t, awardBadge b t now)
    else checkLoop b currentStreak now rest

/-- `BadgeSystem.checkAndAwardBadges(currentStreak)`. -/
def checkAndAwardBadges (b : Badges) (currentStreak : Nat) (now : Nat) :
    Option BadgeType × Badges :=
  checkLoop b currentStreak now badgeKeys

/-- The object literal returned by `getNextBadgeTarget`. -/
structure BadgeTarget where
  badgeType : BadgeType
  threshold : Nat
  remaining : Nat
  name : String
deriving DecidableEq, Repr

/-- The `for` loop of `getNextBadgeTarget`: return at the first badge with
`currentStreak < threshold && !this.player.hasBadge(badge)`. -/
def nextLoop (b : Badges) (currentStreak : Nat) : List BadgeType → Option BadgeTarget
  | [] => none
  | t :: rest =>
    if currentStreak < BADGE_THRESHOLDS t ∧ hasBadge b t = false then
      some { badgeType := t
             threshold := BADGE_THRESHOLDS t
             remaining := BADGE_THRESHOLDS t - currentStreak
             name := BADGE_NAMES t }
    else nextLoop b currentStreak rest

/-- `BadgeSystem.getNextBadgeTarget(currentStreak)`: first badge, in
ascending threshold order, with `currentStreak < threshold` and not yet
earned; `null` when the loop finds none. -/
def getNextBadgeTarget (b : Badges) (currentStreak : Nat) : Option BadgeTarget :=
  nextLoop b currentStreak badgeKeysAsc

/-! ## Achievements (class `Achievement`, src/src/js/models/BadgeSystem.js) -/

/-- The fields of `class Achievement` that `checkProgress`/`isUnlocked`
read. -/
structure Achievement where
  id : String
  name : String
  description : String
  category : String
  requirement : Int
  points : Int
  medal : String
deriving DecidableEq, Repr

/-- `Achievement.checkProgress(player)`: note that
`const stats = player.operationStats[this.category]; if (!stats) return 0;`
runs BEFORE the `switch`, so the `overall` and `streak` branches are
reached only when `operationStats` happens to have a key of that name. -/
def checkProgress (a : Achievement) (p : Player) : Int :=
  match p.operationStats a.category with
  | none => 0
  | some stats =>
    if a.category = "addition" ∨ a.category = "subtraction" ∨
       a.category = "multiplication" ∨ a.category = "division" ∨
       a.category = "supermode" then (stats.correctAnswers : Int)
    else if a.category = "overall" then p.totalScore
    else if a.category = "streak" then (p.bestStreak : Int)
    else 0

/-- `Achievement.isUnlocked(player)`. -/
def isUnlocked (a : Achievement) (p : Player) : Bool :=
  checkProgress a p ≥ a.requirement

/-- The `streak_10` entry of `ACHIEVEMENT_DEFINITIONS.special`. -/
def streak10 : Achievement :=
  { id := "streak_10", name := "Perfect 10"
    description := "Get 10 problems correct in a row"
    category := "streak", requirement := 10, points := 50, medal := "bronze" }

/-- The stat the spec says `isUnlocked` measures (spec §4.3 and claim C1):
the per-operation correct-answer count for operation categories (0 when the
category was never seen), `totalScore` for `overall`, `bestStreak` for
`streak`. -/
def claimedStat (a : Achievement) (p : Player) : Int :=
  if a.category = "addition" ∨ a.category = "subtraction" ∨
     a.category = "multiplication" ∨ a.category = "division" ∨
     a.category = "supermode" then
    (((p.operationStats a.category).getD ⟨0, 0, 0⟩).correctAnswers : Int)
  else if a.category = "overall" then p.totalScore
  else if a.category = "streak" then (p.bestStreak : Int)
  else 0

/-! ## Operation sequences and reachable states -/

/-- One `recordAnswer` call (its arguments, including the timestamp the
call reads from the clock). -/
structure AnswerCall where
  operation : String
  isCorrect : Bool
  points : Nat
  now : String

/-- A sequence of `recordAnswer` calls applied in order. -/
def applyAnswers (calls : List AnswerCall) (p : Player) : Player :=
  calls.foldl (fun q c => recordAnswer q c.operation c.isCorrect c.points c.now) p

/-- An operation that touches the `badges` map: a direct
`player.awardBadge` call or a `BadgeSystem.checkAndAwardBadges`
evaluation. -/
inductive BadgeOp where
  | award (t : BadgeType) (now : Nat)
  | check (currentStreak : Nat) (now : Nat)

/-- Effect of one badge operation on the `badges` map. -/
def applyBadgeOp (b : Badges) : BadgeOp → Badges
  | .award t now => awardBadge b t now
  | .check s now => (checkAndAwardBadges b s now).2

/-- Effect of a sequence of badge operations. -/
def applyBadgeOps (ops : List BadgeOp) (b : Badges) : Badges :=
  ops.foldl applyBadgeOp b

/-- Player states reachable from `new Player()` through the public mutation
methods of `Player.js`.  The side conditions on the string arguments record
that `generateId()` and `new Date().toISOString()` never produce the empty
string.  `addScoreState` is used for `addScore` so that a throwing call
(negative delta) leaves the state in place. -/
inductive Reachable : Player → Prop where
  | init (env : Env) (hid : env.freshId ≠ "") (hnow : env.nowIso ≠ "") :
      Reachable (freshPlayer env)
  | record (p : Player) (hp : Reachable p) (operation : String)
      (isCorrect : Bool) (points : Nat) (now : String) (hnow : now ≠ "") :
      Reachable (recordAnswer p operation isCorrect points now)
  | score (p : Player) (hp : Reachable p) (points : Int) :
      Reachable (addScoreState p points)
  | achieve (p : Player) (hp : Reachable p) (achievementId : String) :
      Reachable (addAchievement p achievementId).2
  | setOpts (p : Player) (hp : Reachable p) (newSettings : PartialSettings) :
      Reachable (updateSettings p newSettings)

/-! ## Spec-side formulations used by the theorems -/

/-- Rounding to two decimal places with round-half-up, i.e. the
`round(x, 2)` the spec describes for `getAccuracy`. -/
def roundTo2 (x : ℚ) : ℚ := ((round (x * 100) : ℤ) : ℚ) / 100

/-- `getAccuracy` exactly as the spec words it: 0 when the category was
never seen or has no answered questions, otherwise the percentage rounded
to two decimals. -/
def getAccuracySpec (p : Player) (operation : String) : ℚ :=
  match p.operationStats operation with
  | none => 0
  | some stats =>
    if stats.questionsAnswered = 0 then 0
    else roundTo2 ((stats.correctAnswers : ℚ) / (stats.questionsAnswered : ℚ) * 100)

/-! ## Concrete states used by witnesses and counterexamples -/

/-- A concrete constructor environment. -/
def env0 : Env := { freshId := "player_1", nowIso := "2024-01-01T00:00:00.000Z" }

/-- A second concrete environment (for `fromJSON`). -/
def env1 : Env := { freshId := "player_2", nowIso := "2024-01-02T00:00:00.000Z" }

/-- A concrete fresh player. -/
def cFresh : Player := freshPlayer env0

/-- A concrete player sitting exactly at the level-up boundary:
`totalScore = 50 = level * 50`. -/
def cBoundary : Player :=
  { cFresh with totalScore := 50, level := 1 }

/-- A player who answered ten addition questions correctly (so
`bestStreak = 10`), starting fresh. -/
def cTenCorrect : Player :=
  applyAnswers (List.replicate 10 ⟨"addition", true, 10, "t1"⟩) cFresh

/-- A player with two correct and one incorrect addition answers. -/
def cAccuracy : Player :=
  applyAnswers
    [⟨"addition", true, 10, "t1"⟩, ⟨"addition", true, 10, "t2"⟩,
     ⟨"addition", false, 0, "t3"⟩] cFresh

/-! ## Helper lemmas -/

/-- Unfolding of `recordAnswer`'s effect on `level` for both values of
`isCorrect`. -/
theorem recordAnswer_level (p : Player) (op : String) (c : Bool) (pts : Nat)
    (now : String) :
    (recordAnswer p op c pts now).level =
      if (if c then p.totalScore + pts else p.totalScore) ≥ ((p.level * 50 : Nat) : Int)
      then p.level + 1 else p.level := by
  cases c <;> rfl

/-- `recordAnswer`'s effect on `totalScore`. -/
theorem recordAnswer_totalScore (p : Player) (op : String) (c : Bool) (pts : Nat)
    (now : String) :
    (recordAnswer p op c pts now).totalScore =
      if c then p.totalScore + pts else p.totalScore := by
  cases c <;> rfl

/-- `recordAnswer`'s effect on `streak`. -/
theorem recordAnswer_streak (p : Player) (op : String) (c : Bool) (pts : Nat)
    (now : String) :
    (recordAnswer p op c pts now).streak = if c then p.streak + 1 else 0 := by
  cases c <;> rfl

/-- `recordAnswer`'s effect on `bestStreak`. -/
theorem recordAnswer_bestStreak (p : Player) (op : String) (c : Bool) (pts : Nat)
    (now : String) :
    (recordAnswer p op c pts now).bestStreak =
      if c then (if p.streak + 1 > p.bestStreak then p.streak + 1 else p.bestStreak)
      else p.bestStreak := by
  cases c <;> rfl

/-- The fields of the player that `recordAnswer` never computes from
scratch. -/
theorem recordAnswer_fixed (p : Player) (op : String) (c : Bool) (pts : Nat)
    (now : String) :
    (recordAnswer p op c pts now).id = p.id ∧
    (recordAnswer p op c pts now).createdAt = p.createdAt ∧
    (recordAnswer p op c pts now).lastPlayed = now := by
  cases c <;> exact ⟨rfl, rfl, rfl⟩

/-- The fields `addScore` never touches (observed through
`addScoreState`). -/
theorem addScoreState_fixed (p : Player) (d : Int) :
    (addScoreState p d).id = p.id ∧
    (addScoreState p d).createdAt = p.createdAt ∧
    (addScoreState p d).lastPlayed = p.lastPlayed ∧
    (addScoreState p d).level = p.level := by
  unfold addScoreState addScore
  split_ifs <;> exact ⟨rfl, rfl, rfl, rfl⟩

/-- The fields `addAchievement` never touches. -/
theorem addAchievement_fixed (p : Player) (a : String) :
    (addAchievement p a).2.id = p.id ∧
    (addAchievement p a).2.createdAt = p.createdAt ∧
    (addAchievement p a).2.lastPlayed = p.lastPlayed ∧
    (addAchievement p a).2.level = p.level := by
  unfold addAchievement
  split_ifs <;> exact ⟨rfl, rfl, rfl, rfl⟩

/-- The JS sort of the badge keys by ascending threshold evaluates to the
insertion order (the thresholds are already increasing). -/
theorem badgeKeysAsc_eq : badgeKeysAsc = [.badge1, .bronze, .silver, .gold] := by
  decide

/-- `checkAndAwardBadges` unrolled over the four badge keys. -/
theorem checkAndAward_unfold (b : Badges) (s now : Nat) :
    checkAndAwardBadges b s now =
      if s ≥ 3 ∧ ¬ hasBadge b .badge1 then (some .badge1, awardBadge b .badge1 now)
      else if s ≥ 5 ∧ ¬ hasBadge b .bronze then (some .bronze, awardBadge b .bronze now)
      else if s ≥ 10 ∧ ¬ hasBadge b .silver then (some .silver, awardBadge b .silver now)
      else if s ≥ 15 ∧ ¬ hasBadge b .gold then (some .gold, awardBadge b .gold now)
      else (none, b) := rfl

/-- `getNextBadgeTarget` unrolled over the four badge keys in ascending
threshold order. -/
theorem getNext_unfold (b : Badges) (s : Nat) :
    getNextBadgeTarget b s =
      if s < 3 ∧ hasBadge b .badge1 = false then some ⟨.badge1, 3, 3 - s, "First Streak"⟩
      else if s < 5 ∧ hasBadge b .bronze = false then some ⟨.bronze, 5, 5 - s, "Bronze Streak"⟩
      else if s < 10 ∧ hasBadge b .silver = false then some ⟨.silver, 10, 10 - s, "Silver Streak"⟩
      else if s < 15 ∧ hasBadge b .gold = false then some ⟨.gold, 15, 15 - s, "Gold Streak"⟩
      else none := by
  unfold getNextBadgeTarget
  rw [badgeKeysAsc_eq]
  rfl

/-- A badge skipped by the `getNextBadgeTarget` loop is earned or has its
threshold not above the streak. -/
theorem badgeNotElig {b : Badges} {s k : Nat} {t : BadgeType}
    (h : ¬(s < k ∧ hasBadge b t = false)) : (b t).earned = true ∨ k ≤ s := by
  by_cases he : (b t).earned = true
  · exact .inl he
  · right
    by_contra hs
    exact h ⟨by omega, by simpa [hasBadge] using he⟩

/-- A badge skipped by the `checkAndAwardBadges` loop is earned whenever
its threshold is reached. -/
theorem badgeNotElig5 {b : Badges} {s k : Nat} {t : BadgeType}
    (h : ¬(s ≥ k ∧ ¬ hasBadge b t)) : k ≤ s → (b t).earned = true := by
  intro hs
  by_contra he
  exact h ⟨hs, by simpa [hasBadge] using he⟩

/-- One badge operation never un-earns a badge. -/
theorem applyBadgeOp_mono (b : Badges) (op : BadgeOp) (t : BadgeType)
    (h : (b t).earned = true) : ((applyBadgeOp b op) t).earned = true := by
  cases op with
  | award u now =>
    simp only [applyBadgeOp, awardBadge]
    split_ifs <;> simp_all
  | check s now =>
    simp only [applyBadgeOp]
    rw [checkAndAward_unfold]
    split_ifs <;> simp only [awardBadge] <;> try (split_ifs <;> simp_all)
    exact h

/-- After any `recordAnswer` step, `streak ≤ bestStreak` holds. -/
theorem streak_le_best_step (p : Player)
    (op : String) (c : Bool) (pts : Nat) (now : String) :
    (recordAnswer p op c pts now).streak ≤ (recordAnswer p op c pts now).bestStreak := by
  simp only [recordAnswer_streak, recordAnswer_bestStreak]
  cases c <;> split_ifs <;> omega

/-- Reachable states keep nonempty `id`/timestamps and a nonzero `level`
(the facts the serialization round trip rests on). -/
theorem reachable_inv (p : Player) (h : Reachable p) :
    p.id ≠ "" ∧ p.createdAt ≠ "" ∧ p.lastPlayed ≠ "" ∧ p.level ≠ 0 := by
  induction h with
  | init env hid hnow =>
    refine ⟨by simpa [freshPlayer, newPlayer, emptyJSON] using hid,
      by simpa [freshPlayer, newPlayer, emptyJSON] using hnow,
      by simpa [freshPlayer, newPlayer, emptyJSON] using hnow,
      by simp [freshPlayer, newPlayer, emptyJSON]⟩
  | record p hp op c pts now hnow ih =>
    obtain ⟨h1, h2, h3⟩ := recordAnswer_fixed p op c pts now
    refine ⟨by rw [h1]; exact ih.1, by rw [h2]; exact ih.2.1,
      by rw [h3]; exact hnow, ?_⟩
    have hlev := ih.2.2.2
    rw [recordAnswer_level]
    split_ifs <;> omega
  | score p hp d ih =>
    obtain ⟨h1, h2, h3, h4⟩ := addScoreState_fixed p d
    exact ⟨by rw [h1]; exact ih.1, by rw [h2]; exact ih.2.1,
      by rw [h3]; exact ih.2.2.1, by rw [h4]; exact ih.2.2.2⟩
  | achieve p hp a ih =>
    obtain ⟨h1, h2, h3, h4⟩ := addAchievement_fixed p a
    exact ⟨by rw [h1]; exact ih.1, by rw [h2]; exact ih.2.1,
      by rw [h3]; exact ih.2.2.1, by rw [h4]; exact ih.2.2.2⟩
  | setOpts p hp ns ih =>
    exact ih

/-! ## Claim theorems -/

/-- Claim C1 (code bug): the spec says `isUnlocked` compares `bestStreak`
against the requirement for a `streak`-category achievement, but the code
guard `if (!stats) return 0` runs before the category switch, so on a
player whose `operationStats` has no `streak` key (every normally played
player) the `streak_10` achievement stays locked even at `bestStreak = 10`:
the claimed stat has reached the requirement, yet `isUnlocked` is false. -/
theorem isUnlocked_streak_guard_bug :
    isUnlocked streak10 cTenCorrect = false ∧
    claimedStat streak10 cTenCorrect = 10 ∧
    streak10.requirement = 10 ∧
    cTenCorrect.bestStreak = 10 ∧
    cTenCorrect.operationStats "streak" = none := by
  refine ⟨by decide, by decide, by decide, by decide, by decide⟩

/-- Claim C2, counterexample: on a fresh player, `addScore(100)` raises
`totalScore` to 100 but leaves `level` at 1, while the claimed formula
`floor(totalScore / 50) + 1` gives 3 — so `level` is not recomputed as that
formula after every score change. -/
theorem level_floor_formula_cex :
    (addScoreState cFresh 100).totalScore = 100 ∧
    (addScoreState cFresh 100).level = 1 ∧
    ((addScoreState cFresh 100).level : Int) ≠
      (addScoreState cFresh 100).totalScore / 50 + 1 := by
  refine ⟨by decide, by decide, by decide⟩

/-- Claim C2 (amended): `addScore` adds a non-negative delta to
`totalScore` and never changes `level`; `recordAnswer` is the only score
change that recomputes `level`, incrementing it by exactly 1 when the
updated `totalScore` has reached `level * 50` and leaving it unchanged
otherwise; `level` never decreases. -/
theorem level_update_semantics :
    (∀ p d q, addScore p d = .ok q →
      q.level = p.level ∧ q.totalScore = p.totalScore + d) ∧
    (∀ p op c pts now,
      p.level ≤ (recordAnswer p op c pts now).level ∧
      ((recordAnswer p op c pts now).level = p.level + 1 ↔
        ((p.level * 50 : Nat) : Int) ≤ (recordAnswer p op c pts now).totalScore)) := by
  constructor
  · intro p d q h
    unfold addScore at h
    split_ifs at h
    cases h
    exact ⟨rfl, rfl⟩
  · intro p op c pts now
    cases c <;> simp only [recordAnswer] <;> split_ifs with h <;> simp_all

/-- Witness for `level_update_semantics` at `addScore 5` on a fresh
player. -/
theorem level_update_semantics_witness :
    (addScoreState cFresh 5).level = cFresh.level ∧
    (addScoreState cFresh 5).totalScore = cFresh.totalScore + 5 :=
  level_update_semantics.1 cFresh 5 (addScoreState cFresh 5) (by rfl)

/-- Claim C3 (confirmed): every `recordAnswer` call changes `level` by 0
or exactly 1, whatever `isCorrect` is; and on an incorrect answer the
level-up check still runs, so `level` increments whenever `totalScore`
already sits at or above `level * 50`. -/
theorem recordAnswer_level_step :
    (∀ p op c pts now, (recordAnswer p op c pts now).level = p.level ∨
      (recordAnswer p op c pts now).level = p.level + 1) ∧
    (∀ p op pts now, ((p.level * 50 : Nat) : Int) ≤ p.totalScore →
      (recordAnswer p op false pts now).level = p.level + 1) := by
  constructor
  · intro p op c pts now
    cases c <;> simp only [recordAnswer] <;> split_ifs <;> simp
  · intro p op pts now h
    simp only [recordAnswer] at *
    split_ifs <;> simp_all

/-- Witness for `recordAnswer_level_step`: an incorrect answer at the
50-point boundary still levels the player up. -/
theorem recordAnswer_level_step_witness :
    (recordAnswer cBoundary "addition" false 0 "t").level = 2 := by
  have h := recordAnswer_level_step.2 cBoundary "addition" 0 "t" (by decide)
  simpa using h

/-- Claim C4, counterexample: with no badge earned and `currentStreak = 3`,
`getNextBadgeTarget` skips `badge1` (whose threshold 3 is at the streak,
and which is the lowest unearned threshold) and returns bronze; and at
streak 20 it returns null although no badge is earned — so it neither
returns the lowest unearned threshold at the streak nor returns null
exactly when all badges are earned. -/
theorem getNextBadgeTarget_cex :
    getNextBadgeTarget initialBadges 3 = some ⟨.bronze, 5, 2, "Bronze Streak"⟩ ∧
    hasBadge initialBadges .badge1 = false ∧
    BADGE_THRESHOLDS .badge1 = 3 ∧
    getNextBadgeTarget initialBadges 20 = none ∧
    hasBadge initialBadges .gold = false := by
  refine ⟨by decide, by decide, by decide, by decide, by decide⟩

/-- Claim C4 (amended): `getNextBadgeTarget` returns the lowest-threshold
badge that is unearned AND whose threshold is strictly above
`currentStreak`, as `{badgeType, threshold, remaining}` with
`remaining = threshold - currentStreak`; it returns null exactly when every
badge is earned or has its threshold at or below `currentStreak`.  On a
fresh player with streak 1 it returns badge1 with threshold 3 and
remaining 2. -/
theorem getNextBadgeTarget_spec :
    (∀ (b : Badges) (s : Nat),
      (getNextBadgeTarget b s = none ↔
        ∀ t, (b t).earned = true ∨ BADGE_THRESHOLDS t ≤ s) ∧
      (∀ tgt, getNextBadgeTarget b s = some tgt →
        tgt.threshold = BADGE_THRESHOLDS tgt.badgeType ∧
        (b tgt.badgeType).earned = false ∧ s < tgt.threshold ∧
        tgt.remaining = tgt.threshold - s ∧ tgt.name = BADGE_NAMES tgt.badgeType ∧
        ∀ u, (b u).earned = false → s < BADGE_THRESHOLDS u →
          tgt.threshold ≤ BADGE_THRESHOLDS u)) ∧
    getNextBadgeTarget initialBadges 1 = some ⟨.badge1, 3, 2, "First Streak"⟩ := by
  refine ⟨?_, by decide⟩
  intro b s
  rw [getNext_unfold]
  split_ifs with c1 c2 c3 c4
  · refine ⟨iff_of_false (by simp) ?_, ?_⟩
    · intro hall
      rcases hall .badge1 with h | h
      · have := c1.2
        simp [hasBadge, h] at this
      · simp [BADGE_THRESHOLDS] at h
        omega
    · intro tgt htgt
      injection htgt with h
      subst h
      refine ⟨by simp [BADGE_THRESHOLDS], by simpa [hasBadge] using c1.2,
        by simpa using c1.1, rfl, by simp [BADGE_NAMES], ?_⟩
      intro u hu hsu
      cases u <;> simp [BADGE_THRESHOLDS]
  · refine ⟨iff_of_false (by simp) ?_, ?_⟩
    · intro hall
      rcases hall .bronze with h | h
      · have := c2.2
        simp [hasBadge, h] at this
      · simp [BADGE_THRESHOLDS] at h
        omega
    · intro tgt htgt
      injection htgt with h
      subst h
      refine ⟨by simp [BADGE_THRESHOLDS], by simpa [hasBadge] using c2.2,
        by simpa using c2.1, rfl, by simp [BADGE_NAMES], ?_⟩
      intro u hu hsu
      cases u <;> simp [BADGE_THRESHOLDS] at hsu ⊢ <;>
        rcases badgeNotElig c1 with h | h <;> simp_all <;> omega
  · refine ⟨iff_of_false (by simp) ?_, ?_⟩
    · intro hall
      rcases hall .silver with h | h
      · have := c3.2
        simp [hasBadge, h] at this
      · simp [BADGE_THRESHOLDS] at h
        omega
    · intro tgt htgt
      injection htgt with h
      subst h
      refine ⟨by simp [BADGE_THRESHOLDS], by simpa [hasBadge] using c3.2,
        by simpa using c3.1, rfl, by simp [BADGE_NAMES], ?_⟩
      intro u hu hsu
      cases u <;> simp [BADGE_THRESHOLDS] at hsu ⊢
      · rcases badgeNotElig c1 with h | h <;> simp_all <;> omega
      · rcases badgeNotElig c2 with h | h <;> simp_all <;> omega
  · refine ⟨iff_of_false (by simp) ?_, ?_⟩
    · intro hall
      rcases hall .gold with h | h
      · have := c4.2
        simp [hasBadge, h] at this
      · simp [BADGE_THRESHOLDS] at h
        omega
    · intro tgt htgt
      injection htgt with h
      subst h
      refine ⟨by simp [BADGE_THRESHOLDS], by simpa [hasBadge] using c4.2,
        by simpa using c4.1, rfl, by simp [BADGE_NAMES], ?_⟩
      intro u hu hsu
      cases u <;> simp [BADGE_THRESHOLDS] at hsu ⊢
      · rcases badgeNotElig c1 with h | h <;> simp_all <;> omega
      · rcases badgeNotElig c2 with h | h <;> simp_all <;> omega
      · rcases badgeNotElig c3 with h | h <;> simp_all <;> omega
  · refine ⟨iff_of_true rfl ?_, fun tgt h => by simp at h⟩
    intro t
    cases t
    · simpa [BADGE_THRESHOLDS] using badgeNotElig c1
    · simpa [BADGE_THRESHOLDS] using badgeNotElig c2
    · simpa [BADGE_THRESHOLDS] using badgeNotElig c3
    · simpa [BADGE_THRESHOLDS] using badgeNotElig c4

/-- Witness for `getNextBadgeTarget_spec`: the none-characterization
applied at streak 20 on a fresh badge map, instantiated at gold. -/
theorem getNextBadgeTarget_spec_witness :
    (initialBadges BadgeType.gold).earned = true ∨
      BADGE_THRESHOLDS BadgeType.gold ≤ 20 :=
  ((getNextBadgeTarget_spec.1 initialBadges 20).1.mp (by decide)) BadgeType.gold

/-- Claim C5 (confirmed): `checkAndAwardBadges`, scanning thresholds in
ascending order, awards and returns the first badge whose threshold is at
or below `currentStreak` and which is not yet earned (so it awards at most
one badge per call, and exactly that one changes in the badge map), returns
null with the map untouched when no new badge qualifies, and at streak 10
on a player with no badges it returns badge1 only. -/
theorem checkAndAwardBadges_first_eligible :
    (∀ (b : Badges) (s now : Nat),
      ((checkAndAwardBadges b s now).1 = none ↔
        ∀ t, BADGE_THRESHOLDS t ≤ s → (b t).earned = true) ∧
      ((checkAndAwardBadges b s now).1 = none → (checkAndAwardBadges b s now).2 = b) ∧
      (∀ t, (checkAndAwardBadges b s now).1 = some t →
        BADGE_THRESHOLDS t ≤ s ∧ (b t).earned = false ∧
        (checkAndAwardBadges b s now).2 = awardBadge b t now ∧
        ∀ u, BADGE_THRESHOLDS u < BADGE_THRESHOLDS t →
          ¬(BADGE_THRESHOLDS u ≤ s ∧ (b u).earned = false))) ∧
    (checkAndAwardBadges initialBadges 10 0).1 = some .badge1 := by
  refine ⟨?_, by decide⟩
  intro b s now
  rw [checkAndAward_unfold]
  split_ifs with c1 c2 c3 c4
  · refine ⟨iff_of_false (by simp) ?_, fun h => absurd h (by simp), ?_⟩
    · intro hall
      have := hall .badge1 (by simpa [BADGE_THRESHOLDS] using c1.1)
      simp [hasBadge, this] at c1
    · intro t ht
      injection ht with h
      subst h
      refine ⟨by simpa [BADGE_THRESHOLDS] using c1.1, by simpa [hasBadge] using c1.2,
        rfl, ?_⟩
      intro u hu
      cases u <;> simp [BADGE_THRESHOLDS] at hu
  · refine ⟨iff_of_false (by simp) ?_, fun h => absurd h (by simp), ?_⟩
    · intro hall
      have := hall .bronze (by simpa [BADGE_THRESHOLDS] using c2.1)
      simp [hasBadge, this] at c2
    · intro t ht
      injection ht with h
      subst h
      refine ⟨by simpa [BADGE_THRESHOLDS] using c2.1, by simpa [hasBadge] using c2.2,
        rfl, ?_⟩
      intro u hu
      cases u <;> simp [BADGE_THRESHOLDS] at hu ⊢
      intro hs
      exact badgeNotElig5 c1 hs
  · refine ⟨iff_of_false (by simp) ?_, fun h => absurd h (by simp), ?_⟩
    · intro hall
      have := hall .silver (by simpa [BADGE_THRESHOLDS] using c3.1)
      simp [hasBadge, this] at c3
    · intro t ht
      injection ht with h
      subst h
      refine ⟨by simpa [BADGE_THRESHOLDS] using c3.1, by simpa [hasBadge] using c3.2,
        rfl, ?_⟩
      intro u hu
      cases u <;> simp [BADGE_THRESHOLDS] at hu ⊢
      · intro hs
        exact badgeNotElig5 c1 hs
      · intro hs
        exact badgeNotElig5 c2 hs
  · refine ⟨iff_of_false (by simp) ?_, fun h => absurd h (by simp), ?_⟩
    · intro hall
      have := hall .gold (by simpa [BADGE_THRESHOLDS] using c4.1)
      simp [hasBadge, this] at c4
    · intro t ht
      injection ht with h
      subst h
      refine ⟨by simpa [BADGE_THRESHOLDS] using c4.1, by simpa [hasBadge] using c4.2,
        rfl, ?_⟩
      intro u hu
      cases u <;> simp [BADGE_THRESHOLDS] at hu ⊢
      · intro hs
        exact badgeNotElig5 c1 hs
      · intro hs
        exact badgeNotElig5 c2 hs
      · intro hs
        exact badgeNotElig5 c3 hs
  · refine ⟨iff_of_true rfl ?_, fun _ => rfl, fun t h => by simp at h⟩
    intro t
    cases t
    · simpa [BADGE_THRESHOLDS] using badgeNotElig5 c1
    · simpa [BADGE_THRESHOLDS] using badgeNotElig5 c2
    · simpa [BADGE_THRESHOLDS] using badgeNotElig5 c3
    · simpa [BADGE_THRESHOLDS] using badgeNotElig5 c4

/-- Witness for `checkAndAwardBadges_first_eligible`: the call at streak 10
on a fresh badge map awards badge1 and only badge1. -/
theorem checkAndAwardBadges_first_eligible_witness :
    BADGE_THRESHOLDS BadgeType.badge1 ≤ 10 ∧
    (initialBadges BadgeType.badge1).earned = false ∧
    (checkAndAwardBadges initialBadges 10 0).2 =
      awardBadge initialBadges BadgeType.badge1 0 ∧
    ∀ u, BADGE_THRESHOLDS u < BADGE_THRESHOLDS BadgeType.badge1 →
      ¬(BADGE_THRESHOLDS u ≤ 10 ∧ (initialBadges u).earned = false) :=
  (checkAndAwardBadges_first_eligible.1 initialBadges 10 0).2.2 .badge1 (by decide)

/-- Claim C6 (confirmed, award/hasBadge modelled from the spec): once a
badge's earned flag is true, no sequence of badge operations (direct
`awardBadge` calls and `checkAndAwardBadges` evaluations) ever resets it;
awarding an already-earned badge only bumps its count and lastEarned and
leaves every other badge entry untouched. -/
theorem badge_earned_monotone :
    (∀ ops b t, (b t).earned = true → ((applyBadgeOps ops b) t).earned = true) ∧
    (∀ b t now, (b t).earned = true →
      ((awardBadge b t now) t).earned = true ∧
      ((awardBadge b t now) t).count = (b t).count + 1 ∧
      ((awardBadge b t now) t).lastEarned = some now ∧
      ∀ u, u ≠ t → (awardBadge b t now) u = b u) := by
  constructor
  · intro ops
    induction ops with
    | nil => intro b t h; exact h
    | cons op rest ih =>
      intro b t h
      exact ih (applyBadgeOp b op) t (applyBadgeOp_mono b op t h)
  · intro b t now h
    refine ⟨by simp [awardBadge], by simp [awardBadge], by simp [awardBadge], ?_⟩
    intro u hu
    simp [awardBadge, hu]

/-- Witness for `badge_earned_monotone`: gold stays earned through a
`checkAndAwardBadges` evaluation and another award. -/
theorem badge_earned_monotone_witness :
    ((applyBadgeOps [.check 3 1, .award .badge1 2]
        (awardBadge initialBadges .gold 0)) BadgeType.gold).earned = true :=
  badge_earned_monotone.1 [.check 3 1, .award .badge1 2]
    (awardBadge initialBadges .gold 0) .gold (by decide)

/-- Claim C7 (confirmed): `addScore` with a negative delta fails with the
`InvalidScoreDelta` error and leaves the state unchanged; with a
non-negative delta it adds the delta to `totalScore`; a non-negative
`totalScore` stays non-negative. -/
theorem addScore_validation :
    (∀ p d, d < 0 → addScore p d = .error InvalidScoreDelta ∧ addScoreState p d = p) ∧
    (∀ p d, 0 ≤ d → addScore p d = .ok { p with totalScore := p.totalScore + d }) ∧
    (∀ p d, 0 ≤ p.totalScore → 0 ≤ (addScoreState p d).totalScore) := by
  refine ⟨?_, ?_, ?_⟩
  · intro p d h
    constructor
    · simp [addScore, h]
    · simp [addScoreState, addScore, h]
  · intro p d h
    simp [addScore, not_lt.mpr h]
  · intro p d hp
    unfold addScoreState addScore
    split_ifs with hd
    · exact hp
    · show 0 ≤ p.totalScore + d
      omega

/-- Witness for `addScore_validation` at delta -1 on a fresh player. -/
theorem addScore_validation_witness :
    addScore cFresh (-1) = .error InvalidScoreDelta ∧
    addScoreState cFresh (-1) = cFresh :=
  addScore_validation.1 cFresh (-1) (by decide)

/-- Claim C8 (confirmed): starting from a freshly constructed player,
`streak ≤ bestStreak` holds after every sequence of `recordAnswer` calls;
an incorrect answer resets `streak` to 0 (leaving `bestStreak` alone) and a
correct answer sets `bestStreak` to the maximum of the old `bestStreak` and
the updated `streak`. -/
theorem streak_le_bestStreak :
    (∀ env calls, (applyAnswers calls (freshPlayer env)).streak ≤
      (applyAnswers calls (freshPlayer env)).bestStreak) ∧
    (∀ p op pts now, (recordAnswer p op false pts now).streak = 0 ∧
      (recordAnswer p op false pts now).bestStreak = p.bestStreak) ∧
    (∀ p op pts now, (recordAnswer p op true pts now).bestStreak =
      max p.bestStreak (recordAnswer p op true pts now).streak) := by
  refine ⟨?_, ?_, ?_⟩
  · intro env calls
    have h0 : (freshPlayer env).streak ≤ (freshPlayer env).bestStreak := by
      simp [freshPlayer, newPlayer, emptyJSON]
    generalize freshPlayer env = p at h0 ⊢
    induction calls generalizing p with
    | nil => exact h0
    | cons c rest ih =>
      exact ih _ (streak_le_best_step p c.operation c.isCorrect c.points c.now)
  · intro p op pts now
    exact ⟨rfl, rfl⟩
  · intro p op pts now
    simp only [recordAnswer_bestStreak, recordAnswer_streak, if_true]
    split_ifs <;> omega

/-- Claim C9 (confirmed): for every player state reachable from the
default constructor through the public mutation methods,
`Player.fromJSON(p.toJSON())` rebuilds a player equal to `p` in every
field. -/
theorem toJSON_fromJSON_roundtrip :
    ∀ (env : Env) (p : Player), Reachable p → fromJSON env (toJSON p) = p := by
  intro env p h
  obtain ⟨hid, hc, hl, hlev⟩ := reachable_inv p h
  obtain ⟨id, ts, os, ach, st, ca, lp, lv, sk, bs⟩ := p
  simp only [fromJSON, newPlayer, toJSON, Option.getD_some] at *
  refine Player.mk.injEq .. |>.mpr ?_
  refine ⟨by simp_all, ?_, rfl, rfl, rfl, by simp_all, by simp_all, ?_, ?_, ?_⟩
  · split_ifs with h0
    · exact h0.symm
    · rfl
  · simp_all
  · split_ifs with h0
    · exact h0.symm
    · rfl
  · split_ifs with h0
    · exact h0.symm
    · rfl

/-- Witness for `toJSON_fromJSON_roundtrip` on a concrete fresh player,
rebuilt under a different environment. -/
theorem toJSON_fromJSON_roundtrip_witness :
    fromJSON env1 (toJSON (freshPlayer env0)) = freshPlayer env0 :=
  toJSON_fromJSON_roundtrip env1 (freshPlayer env0)
    (.init env0 (by decide) (by decide))

/-- Claim C10 (confirmed): `getAccuracy` returns exactly 0 when the
category was never seen or has no answered questions, otherwise the
percentage `correctAnswers / questionsAnswered * 100` rounded to two
decimal places; it agrees everywhere with the spec formula (and in this
total embedding no division by zero can occur). -/
theorem getAccuracy_spec :
    (∀ p op, p.operationStats op = none → getAccuracy p op = 0) ∧
    (∀ p op st, p.operationStats op = some st → st.questionsAnswered = 0 →
      getAccuracy p op = 0) ∧
    (∀ p op st, p.operationStats op = some st → st.questionsAnswered ≠ 0 →
      getAccuracy p op =
        roundTo2 ((st.correctAnswers : ℚ) / (st.questionsAnswered : ℚ) * 100)) ∧
    (∀ p op, getAccuracy p op = getAccuracySpec p op) := by
  refine ⟨?_, ?_, ?_, ?_⟩
  · intro p op h
    simp [getAccuracy, h]
  · intro p op st h hq
    simp [getAccuracy, h, hq]
  · intro p op st h hq
    simp [getAccuracy, h, hq, roundTo2, mul_assoc]
  · intro p op
    unfold getAccuracy getAccuracySpec roundTo2
    cases h : p.operationStats op with
    | none => rfl
    | some st =>
      by_cases hq : st.questionsAnswered = 0
      · simp [hq]
      · simp [hq, mul_assoc]

/-- Witness for `getAccuracy_spec`: two of three correct addition answers
give the rounded percentage of two thirds. -/
theorem getAccuracy_spec_witness :
    getAccuracy cAccuracy "addition" = roundTo2 ((2 : ℚ) / 3 * 100) := by
  have h := getAccuracy_spec.2.2.1 cAccuracy "addition" ⟨20, 3, 2⟩ (by decide) (by decide)
  simpa using h

end Supermath
